import Mathlib

/-! The Doxygen class-hierarchy index `html/hierarchy.js`.

The file `html/hierarchy.js` holds one JavaScript array literal, `hierarchy`.
Its values are embedded as they are written: string literals, `null`, and
array literals.  Nothing about the shape of a node is built into the type, so
that the shape itself is a statement about the data.
-/

/-- The JavaScript values that occur in `hierarchy.js`. -/
inductive JSVal where
  | null : JSVal
  | str (s : String) : JSVal
  | arr (items : List JSVal) : JSVal

open JSVal in
/-- The literal `var hierarchy = [ ... ];` of `html/hierarchy.js`, lines 1 to 47. -/
def hierarchy : JSVal :=
  arr [
    arr [ str "Board&lt; T &gt;", str "class_board.html", null ],
    arr [ str "Board&lt; char &gt;", str "class_board.html", arr [
      arr [ str "Diamond_Tic_Tac_Toe_Board", str "class_diamond___tic___tac___toe___board.html", null ],
      arr [ str "FourInARow_Board", str "class_four_in_a_row___board.html", null ],
      arr [ str "Infinity_Board", str "class_infinity___board.html", null ],
      arr [ str "MemoryTTT_Board", str "class_memory_t_t_t___board.html", null ],
      arr [ str "MiniBoard", str "class_mini_board.html", null ],
      arr [ str "Misere_Tic_Tac_Toe_Board", str "class_misere___tic___tac___toe___board.html", null ],
      arr [ str "Obstacles_Tic_Tac_Toe_Board", str "class_obstacles___tic___tac___toe___board.html", null ],
      arr [ str "SUS_Board", str "class_s_u_s___board.html", null ],
      arr [ str "TicTacToe5x5", str "class_tic_tac_toe5x5.html", null ],
      arr [ str "Tic_Tac_Toe_4x4_Board", str "class_tic___tac___toe__4x4___board.html", null ],
      arr [ str "UltimateTicTacToe_Board", str "class_ultimate_tic_tac_toe___board.html", null ],
      arr [ str "WordTicTacToe_Board", str "class_word_tic_tac_toe___board.html", null ],
      arr [ str "X_O_Board", str "class_x___o___board.html", null ]
    ] ],
    arr [ str "Board&lt; int &gt;", str "class_board.html", arr [
      arr [ str "Numerical_Board", str "class_numerical___board.html", null ]
    ] ],
    arr [ str "GameManager&lt; T &gt;", str "class_game_manager.html", null ],
    arr [ str "Move&lt; T &gt;", str "class_move.html", null ],
    arr [ str "Player&lt; T &gt;", str "class_player.html", null ],
    arr [ str "Player&lt; char &gt;", str "class_player.html", arr [
      arr [ str "Diamond_AI_Player", str "class_diamond___a_i___player.html", null ],
      arr [ str "MemoryTTT_AI_Player", str "class_memory_t_t_t___a_i___player.html", null ]
    ] ],
    arr [ str "UI&lt; T &gt;", str "class_u_i.html", null ],
    arr [ str "UI&lt; char &gt;", str "class_u_i.html", arr [
      arr [ str "Diamond_Tic_Tac_Toe_UI", str "class_diamond___tic___tac___toe___u_i.html", null ],
      arr [ str "FourInARow_UI", str "class_four_in_a_row___u_i.html", null ],
      arr [ str "Infinity_UI", str "class_infinity___u_i.html", null ],
      arr [ str "MemoryTTT_UI", str "class_memory_t_t_t___u_i.html", null ],
      arr [ str "Misere_Tic_Tac_Toe_UI", str "class_misere___tic___tac___toe___u_i.html", null ],
      arr [ str "Obstacles_Tic_Tac_Toe_UI", str "class_obstacles___tic___tac___toe___u_i.html", null ],
      arr [ str "SUS_UI", str "class_s_u_s___u_i.html", null ],
      arr [ str "TicTacToe5x5_UI", str "class_tic_tac_toe5x5___u_i.html", null ],
      arr [ str "Tic_Tac_Toe_4x4_UI", str "class_tic___tac___toe__4x4___u_i.html", null ],
      arr [ str "UltimateTicTacToe_UI", str "class_ultimate_tic_tac_toe___u_i.html", null ],
      arr [ str "WordTicTacToe_UI", str "class_word_tic_tac_toe___u_i.html", null ],
      arr [ str "XO_UI", str "class_x_o___u_i.html", null ]
    ] ],
    arr [ str "UI&lt; int &gt;", str "class_u_i.html", arr [
      arr [ str "Numerical_UI", str "class_numerical___u_i.html", null ]
    ] ]
  ]

namespace JSVal

/-- The elements of an array value; a value that is no array has none. -/
def items : JSVal → List JSVal
  | arr xs => xs
  | _ => []

/-- The element at index `i` of an array value (`v[i]`), when there is one. -/
def component (v : JSVal) (i : Nat) : Option JSVal :=
  v.items.get? i

/-- The display name of a node, `node[0]`, when it is a string. -/
def name (v : JSVal) : String :=
  match v.component 0 with
  | some (str s) => s
  | _ => ""

/-- The link target of a node, `node[1]`, when it is a string. -/
def target (v : JSVal) : String :=
  match v.component 1 with
  | some (str s) => s
  | _ => ""

/-- The listed children of a node: the elements of `node[2]` when it is an
array, none when it is `null`. -/
def children (v : JSVal) : List JSVal :=
  match v.component 2 with
  | some c => c.items
  | none => []

/-- Whether `node[2]` is `null`. -/
def childrenIsNull (v : JSVal) : Bool :=
  match v.component 2 with
  | some null => true
  | _ => false

mutual
/-- Every node of the tree below a node, the node itself first. -/
def subtree : JSVal → List JSVal
  | arr xs => arr xs :: subtreeOfTuple xs
  | v => [v]
/-- The nodes below the children component (the third) of a node's tuple. -/
def subtreeOfTuple : List JSVal → List JSVal
  | [_, _, arr cs] => forest cs
  | _ => []
/-- Every node at every depth of a list of sibling nodes. -/
def forest : List JSVal → List JSVal
  | [] => []
  | c :: cs => subtree c ++ forest cs
end

end JSVal

/-- The top-level entries of `hierarchy`. -/
def topLevel : List JSVal := hierarchy.items

/-- The second-level entries: the children of all top-level entries, in order. -/
def secondLevel : List JSVal := topLevel.flatMap JSVal.children

/-- Every node of `hierarchy`, at every depth. -/
def allNodes : List JSVal := JSVal.forest topLevel

/-- A well-formed node: an array of exactly three elements, a non-empty string,
a non-empty string, and either `null` or an array of well-formed nodes. -/
inductive WellFormed : JSVal → Prop
  | leaf (n t : String) : n ≠ "" → t ≠ "" →
      WellFormed (.arr [.str n, .str t, .null])
  | branch (n t : String) (cs : List JSVal) : n ≠ "" → t ≠ "" →
      (∀ c ∈ cs, WellFormed c) → WellFormed (.arr [.str n, .str t, .arr cs])

mutual
/-- The number of levels of a node's subtree, the node's own level included. -/
def height : JSVal → Nat
  | .arr xs => 1 + heightOfTuple xs
  | _ => 1
/-- The number of levels below a node, read off its tuple's children component. -/
def heightOfTuple : List JSVal → Nat
  | [_, _, .arr cs] => forestHeight cs
  | _ => 0
/-- The number of levels of a list of sibling nodes. -/
def forestHeight : List JSVal → Nat
  | [] => 0
  | c :: cs => max (height c) (forestHeight cs)
end

/-! ## Names, template families and link targets -/

/-- Whether the character list `s` begins with the character list `p`. -/
def startsWith : List Char → List Char → Bool
  | _, [] => true
  | [], _ :: _ => false
  | c :: s, d :: p => c == d && startsWith s p

/-- Whether the character list `s` ends with the character list `p`. -/
def endsWith (s p : List Char) : Bool :=
  startsWith s.reverse p.reverse

/-- The characters before the first occurrence of `&lt;`. -/
def dropArgs : List Char → List Char
  | [] => []
  | c :: cs => if startsWith (c :: cs) "&lt;".toList then [] else c :: dropArgs cs

/-- The class identifier of a display name: the name without its trailing
HTML-escaped template argument list `&lt; ... &gt;`, when it has one. -/
def baseName (s : String) : String :=
  if endsWith s.toList "&gt;".toList then String.mk (dropArgs s.toList) else s

/-- The text between `&lt; ` and ` &gt;` of a display name that ends in a
template argument list. -/
def templateArg (s : String) : String :=
  let rest := s.toList.drop ((dropArgs s.toList).length + 5)
  String.mk (rest.take (rest.length - 5))

/-- The five base templates. -/
def baseTemplates : List String := ["Board", "Player", "UI", "GameManager", "Move"]

/-- The Doxygen file-name escape of one character: an uppercase ASCII letter
becomes `_` and the lowercase letter, an underscore is doubled, any other
character (lowercase letters and digits among them) is kept. -/
def escChar (c : Char) : List Char :=
  if c.isUpper then ['_', c.toLower]
  else if c = '_' then ['_', '_']
  else [c]

/-- The Doxygen file-name escape of a string, character by character. -/
def esc (s : String) : String :=
  String.mk (s.toList.flatMap escChar)

/-- The page a class identifier links to. -/
def classPage (base : String) : String :=
  "class" ++ esc base ++ ".html"

/-- Whether a character is one the escape is specified on: an ASCII letter, a
digit or an underscore. -/
def isIdentChar (c : Char) : Bool :=
  c.isUpper || c.isLower || c.isDigit || c == '_'

/-! ## Order of siblings -/

/-- Lexicographic order on character lists by code point, strict. -/
def codePointLt : List Char → List Char → Bool
  | _, [] => false
  | [], _ :: _ => true
  | a :: as, b :: bs => a.toNat < b.toNat || (a.toNat == b.toNat && codePointLt as bs)

/-- The name `a` comes strictly before the name `b` in code-point order. -/
def nameLt (a b : String) : Prop :=
  codePointLt a.toList b.toList = true

instance (a b : String) : Decidable (nameLt a b) := by
  unfold nameLt; infer_instance

/-- A list of sibling nodes is strictly ascending by name: each name comes
strictly before every later one. -/
def StrictlyAscending (siblings : List JSVal) : Prop :=
  (siblings.map JSVal.name).Pairwise nameLt

instance (siblings : List JSVal) : Decidable (StrictlyAscending siblings) := by
  unfold StrictlyAscending; infer_instance

/-! ## Entries of `hierarchy`, written out -/

/-- The entry `Board< int >` of `hierarchy`. -/
def boardIntEntry : JSVal :=
  .arr [ .str "Board&lt; int &gt;", .str "class_board.html", .arr [
    .arr [ .str "Numerical_Board", .str "class_numerical___board.html", .null ] ] ]

/-- The entry `Numerical_Board`, the one child of `Board< int >`. -/
def numericalBoardEntry : JSVal :=
  .arr [ .str "Numerical_Board", .str "class_numerical___board.html", .null ]

/-- The entry `Move< T >` of `hierarchy`. -/
def moveEntry : JSVal :=
  .arr [ .str "Move&lt; T &gt;", .str "class_move.html", .null ]

/-- The entry `Board< char >` of `hierarchy`, with its 13 children. -/
def boardCharEntry : JSVal :=
  .arr [ .str "Board&lt; char &gt;", .str "class_board.html", .arr [
    .arr [ .str "Diamond_Tic_Tac_Toe_Board", .str "class_diamond___tic___tac___toe___board.html", .null ],
    .arr [ .str "FourInARow_Board", .str "class_four_in_a_row___board.html", .null ],
    .arr [ .str "Infinity_Board", .str "class_infinity___board.html", .null ],
    .arr [ .str "MemoryTTT_Board", .str "class_memory_t_t_t___board.html", .null ],
    .arr [ .str "MiniBoard", .str "class_mini_board.html", .null ],
    .arr [ .str "Misere_Tic_Tac_Toe_Board", .str "class_misere___tic___tac___toe___board.html", .null ],
    .arr [ .str "Obstacles_Tic_Tac_Toe_Board", .str "class_obstacles___tic___tac___toe___board.html", .null ],
    .arr [ .str "SUS_Board", .str "class_s_u_s___board.html", .null ],
    .arr [ .str "TicTacToe5x5", .str "class_tic_tac_toe5x5.html", .null ],
    .arr [ .str "Tic_Tac_Toe_4x4_Board", .str "class_tic___tac___toe__4x4___board.html", .null ],
    .arr [ .str "UltimateTicTacToe_Board", .str "class_ultimate_tic_tac_toe___board.html", .null ],
    .arr [ .str "WordTicTacToe_Board", .str "class_word_tic_tac_toe___board.html", .null ],
    .arr [ .str "X_O_Board", .str "class_x___o___board.html", .null ]
  ] ]

/-! ## Well-formedness at every depth -/

theorem wellFormed_forest (cs : List JSVal)
    (h : ∀ c ∈ cs, ∀ x ∈ JSVal.subtree c, WellFormed x) :
    ∀ x ∈ JSVal.forest cs, WellFormed x := by
  induction cs with
  | nil => intro x hx; simp [JSVal.forest] at hx
  | cons c cs ih =>
    intro x hx
    simp only [JSVal.forest, List.mem_append] at hx
    rcases hx with hx | hx
    · exact h c (List.mem_cons_self _ _) x hx
    · exact ih (fun d hd => h d (List.mem_cons_of_mem _ hd)) x hx

theorem wellFormed_subtree (v : JSVal) (h : WellFormed v) :
    ∀ x ∈ JSVal.subtree v, WellFormed x := by
  induction h with
  | leaf n t hn ht =>
    intro x hx
    simp only [JSVal.subtree, JSVal.subtreeOfTuple, List.mem_singleton, List.mem_cons,
      List.not_mem_nil, or_false] at hx
    subst hx
    exact WellFormed.leaf n t hn ht
  | branch n t cs hn ht hcs ih =>
    intro x hx
    simp only [JSVal.subtree, JSVal.subtreeOfTuple, List.mem_cons] at hx
    rcases hx with hx | hx
    · subst hx
      exact WellFormed.branch n t cs hn ht hcs
    · exact wellFormed_forest cs ih x hx

theorem topLevel_wellFormed : ∀ e ∈ topLevel, WellFormed e := by
  unfold topLevel hierarchy JSVal.items
  repeat' first
    | exact WellFormed.leaf _ _ (by decide) (by decide)
    | exact fun _ h => absurd h (List.not_mem_nil _)
    | refine WellFormed.branch _ _ _ (by decide) (by decide) ?_
    | refine List.forall_mem_cons.2 ⟨?_, ?_⟩

/-! ## The order of names -/

theorem codePointLt_irrefl (s : List Char) : codePointLt s s = false := by
  induction s with
  | nil => rfl
  | cons a s ih => simp [codePointLt, ih]

theorem char_eq_of_toNat_eq {a b : Char} (h : a.toNat = b.toNat) : a = b :=
  Char.ext (UInt32.ext (by simpa [Char.toNat] using h))

theorem codePointLt_iff_lex (s t : List Char) :
    codePointLt s t = true ↔ List.Lex (fun a b : Char => a < b) s t := by
  induction s generalizing t with
  | nil =>
    cases t with
    | nil => exact ⟨fun h => by simp [codePointLt] at h, fun h => by cases h⟩
    | cons b t => exact ⟨fun _ => List.Lex.nil, fun _ => rfl⟩
  | cons a s ih =>
    cases t with
    | nil => exact ⟨fun h => by simp [codePointLt] at h, fun h => by cases h⟩
    | cons b t =>
      simp only [codePointLt, Bool.or_eq_true, Bool.and_eq_true, decide_eq_true_eq, beq_iff_eq]
      constructor
      · rintro (h | ⟨h, hr⟩)
        · exact List.Lex.rel h
        · obtain rfl := char_eq_of_toNat_eq h
          exact List.Lex.cons ((ih t).1 hr)
      · intro h
        cases h with
        | rel h => exact Or.inl h
        | cons hr => exact Or.inr ⟨rfl, (ih _).2 hr⟩

theorem nameLt_iff_lt (a b : String) : nameLt a b ↔ a < b := by
  rw [String.lt_iff_toList_lt]
  exact codePointLt_iff_lex a.toList b.toList

theorem nameLt_ne {a b : String} (h : nameLt a b) : a ≠ b := by
  rintro rfl
  unfold nameLt at h
  rw [codePointLt_irrefl] at h
  exact Bool.false_ne_true h

theorem nodup_of_pairwise_nameLt {names : List String} (h : names.Pairwise nameLt) :
    names.Nodup :=
  List.Pairwise.imp nameLt_ne h

theorem strictlyAscending_iff_pairwise_lt (siblings : List JSVal) :
    StrictlyAscending siblings ↔ (siblings.map JSVal.name).Pairwise (fun a b => a < b) := by
  unfold StrictlyAscending
  constructor
  · exact List.Pairwise.imp (fun h => (nameLt_iff_lt _ _).1 h)
  · exact List.Pairwise.imp (fun h => (nameLt_iff_lt _ _).2 h)

theorem StrictlyAscending.nodup {siblings : List JSVal} (h : StrictlyAscending siblings) :
    (siblings.map JSVal.name).Nodup :=
  nodup_of_pairwise_nameLt h

/-! ## The claims -/

/-- C1. The constant `hierarchy` is a well-formed tree: it is an array of 10
top-level entries, and every node at every depth (each top-level entry and each
of their children) is a 3-tuple of a non-empty name string, a non-empty target
string, and a children component that is `null` or a list of well-formed
nodes. -/
theorem hierarchy_wellFormed :
    hierarchy = JSVal.arr topLevel ∧ topLevel.length = 10 ∧
      (∀ e ∈ topLevel, WellFormed e) ∧
      (∀ e ∈ topLevel, ∀ c ∈ e.children, WellFormed c) ∧
      (∀ x ∈ allNodes, WellFormed x) := by
  have hall : ∀ x ∈ allNodes, WellFormed x :=
    wellFormed_forest topLevel (fun e he => wellFormed_subtree e (topLevel_wellFormed e he))
  refine ⟨rfl, by decide, topLevel_wellFormed, ?_, hall⟩
  intro e he c hc
  cases topLevel_wellFormed e he with
  | leaf n t hn ht => simp [JSVal.children, JSVal.component, JSVal.items] at hc
  | branch n t cs hn ht hcs =>
    simp only [JSVal.children, JSVal.component, JSVal.items, List.get?] at hc
    exact hcs c hc

/-- C2. The tree in `hierarchy` is a shallow two-level taxonomy: it has at most
two levels, that is, for every top-level entry and every child in its children
list, the child's children component is `null`; so every node is a top-level
entry or the child of one. -/
theorem hierarchy_depth_le_two :
    forestHeight topLevel ≤ 2 ∧
      (∀ e ∈ topLevel, ∀ c ∈ e.children, c.childrenIsNull = true ∧ c.children = []) ∧
      allNodes.length = topLevel.length + secondLevel.length := by
  refine ⟨by decide, ?_, by decide⟩
  have h : ∀ e ∈ topLevel, ∀ c ∈ e.children,
      c.childrenIsNull = true ∧ c.children.length = 0 := by decide
  intro e he c hc
  exact ⟨(h e he c hc).1, List.length_eq_zero.1 (h e he c hc).2⟩

/-- C3. The template classes with no listed derivatives are exactly
`GameManager` and `Move`: their entries exist and have children `null`, each of
the families `Board`, `Player` and `UI` has a top-level entry with a non-empty
children list, and every top-level entry with a non-empty children list belongs
to the `Board`, `Player` or `UI` family. -/
theorem no_derivatives_exactly_GameManager_Move :
    (∀ f ∈ ["GameManager", "Move"], ∃ e ∈ topLevel, baseName e.name = f) ∧
      (∀ e ∈ topLevel, baseName e.name ∈ ["GameManager", "Move"] →
        e.childrenIsNull = true ∧ e.children = []) ∧
      (∀ f ∈ ["Board", "Player", "UI"],
        ∃ e ∈ topLevel, baseName e.name = f ∧ e.children ≠ []) ∧
      (∀ e ∈ topLevel, e.children ≠ [] → baseName e.name ∈ ["Board", "Player", "UI"]) ∧
      (∀ f ∈ baseTemplates,
        (∀ e ∈ topLevel, baseName e.name = f → e.children = []) ↔
          f ∈ ["GameManager", "Move"]) := by
  have h1 : ∀ f ∈ ["GameManager", "Move"], ∃ e ∈ topLevel, baseName e.name = f := by decide
  have h2 : ∀ e ∈ topLevel, baseName e.name ∈ ["GameManager", "Move"] →
      e.childrenIsNull = true ∧ e.children.length = 0 := by decide
  have h3 : ∀ f ∈ ["Board", "Player", "UI"],
      ∃ e ∈ topLevel, baseName e.name = f ∧ e.children.length ≠ 0 := by decide
  have h4 : ∀ e ∈ topLevel, e.children.length ≠ 0 →
      baseName e.name ∈ ["Board", "Player", "UI"] := by decide
  have h5 : ∀ f ∈ baseTemplates,
      (∀ e ∈ topLevel, baseName e.name = f → e.children.length = 0) ↔
        f ∈ ["GameManager", "Move"] := by decide
  refine ⟨h1, ?_, ?_, ?_, ?_⟩
  · intro e he hf
    exact ⟨(h2 e he hf).1, List.length_eq_zero.1 (h2 e he hf).2⟩
  · intro f hf
    obtain ⟨e, he, hn, hc⟩ := h3 f hf
    exact ⟨e, he, hn, fun h => hc (List.length_eq_zero.2 h)⟩
  · intro e he hc
    exact h4 e he (fun h => hc (List.length_eq_zero.1 h))
  · intro f hf
    rw [← h5 f hf]
    constructor
    · intro h e he hn
      exact List.length_eq_zero.2 (h e he hn)
    · intro h e he hn
      exact List.length_eq_zero.1 (h e he hn)

/-- C4. The top level of `hierarchy` enumerates exactly the five base templates
`Board`, `Player`, `UI`, `GameManager` and `Move`: every top-level name is one
of these identifiers followed by an HTML-escaped template argument list
`&lt; X &gt;`, and each of the five has a top-level entry whose argument is
`T`. -/
theorem topLevel_enumerates_baseTemplates :
    (∀ e ∈ topLevel, ∃ b ∈ baseTemplates, ∃ X : String,
        X ≠ "" ∧ e.name = b ++ "&lt; " ++ X ++ " &gt;" ∧ baseName e.name = b) ∧
      (∀ b ∈ baseTemplates, ∃ e ∈ topLevel, e.name = b ++ "&lt; T &gt;") := by
  have h : ∀ e ∈ topLevel, baseName e.name ∈ baseTemplates ∧ templateArg e.name ≠ "" ∧
      e.name = baseName e.name ++ "&lt; " ++ templateArg e.name ++ " &gt;" := by decide
  refine ⟨?_, by decide⟩
  intro e he
  exact ⟨baseName e.name, (h e he).1, templateArg e.name, (h e he).2.1, (h e he).2.2, rfl⟩

/-- C5, as the code has it. The three entries named for the base templates
themselves, `Board< T >`, `Player< T >` and `UI< T >`, exist and have children
`null`; the derived game-specific classes are the non-empty children lists of
the entries for the instantiations `Board< char >`, `Board< int >`,
`Player< char >`, `UI< char >` and `UI< int >`, which are all the entries that
list children. -/
theorem derived_classes_listed_under_instantiations :
    (∀ n ∈ ["Board&lt; T &gt;", "Player&lt; T &gt;", "UI&lt; T &gt;"],
        (∃ e ∈ topLevel, e.name = n) ∧
          ∀ e ∈ topLevel, e.name = n → e.childrenIsNull = true ∧ e.children = []) ∧
      (∀ n ∈ ["Board&lt; char &gt;", "Board&lt; int &gt;", "Player&lt; char &gt;",
            "UI&lt; char &gt;", "UI&lt; int &gt;"],
        (∃ e ∈ topLevel, e.name = n) ∧
          ∀ e ∈ topLevel, e.name = n → e.childrenIsNull = false ∧ e.children ≠ []) ∧
      (∀ e ∈ topLevel, e.children ≠ [] →
        e.name ∈ ["Board&lt; char &gt;", "Board&lt; int &gt;", "Player&lt; char &gt;",
            "UI&lt; char &gt;", "UI&lt; int &gt;"]) := by
  have h1 : ∀ n ∈ ["Board&lt; T &gt;", "Player&lt; T &gt;", "UI&lt; T &gt;"],
      (∃ e ∈ topLevel, e.name = n) ∧
        ∀ e ∈ topLevel, e.name = n → e.childrenIsNull = true ∧ e.children.length = 0 := by
    decide
  have h2 : ∀ n ∈ ["Board&lt; char &gt;", "Board&lt; int &gt;", "Player&lt; char &gt;",
          "UI&lt; char &gt;", "UI&lt; int &gt;"],
      (∃ e ∈ topLevel, e.name = n) ∧
        ∀ e ∈ topLevel, e.name = n → e.childrenIsNull = false ∧ e.children.length ≠ 0 := by
    decide
  have h3 : ∀ e ∈ topLevel, e.children.length ≠ 0 →
      e.name ∈ ["Board&lt; char &gt;", "Board&lt; int &gt;", "Player&lt; char &gt;",
          "UI&lt; char &gt;", "UI&lt; int &gt;"] := by decide
  refine ⟨?_, ?_, ?_⟩
  · intro n hn
    refine ⟨(h1 n hn).1, fun e he hne => ?_⟩
    exact ⟨((h1 n hn).2 e he hne).1, List.length_eq_zero.1 ((h1 n hn).2 e he hne).2⟩
  · intro n hn
    refine ⟨(h2 n hn).1, fun e he hne => ?_⟩
    exact ⟨((h2 n hn).2 e he hne).1,
      fun h => ((h2 n hn).2 e he hne).2 (List.length_eq_zero.2 h)⟩
  · intro e he hc
    exact h3 e he (fun h => hc (List.length_eq_zero.1 h))

/-- C5, as stated, fails: the entries named `Board< T >`, `Player< T >` and
`UI< T >` do not all have a non-empty children list; the first entry of
`hierarchy`, `[ "Board&lt; T &gt;", "class_board.html", null ]`, has none. -/
theorem baseTemplate_entries_children_not_nonempty :
    ¬ (∀ e ∈ topLevel,
        e.name ∈ ["Board&lt; T &gt;", "Player&lt; T &gt;", "UI&lt; T &gt;"] →
          e.children ≠ []) := by
  intro h
  exact h (.arr [.str "Board&lt; T &gt;", .str "class_board.html", .null])
    (List.mem_cons_self _ _) (by decide) rfl

/-- C6. Every link target in `hierarchy` is the Doxygen file-name escape of the
class name: for every node at every depth, the target is `class`, then the
escape of the name without its template argument list, then `.html`; so all
top-level entries of one template family share one target. The names without
their argument lists consist of ASCII letters, digits and underscores only, the
characters the escape is specified on. -/
theorem target_is_escaped_className :
    (∀ x ∈ allNodes, x.target = "class" ++ esc (baseName x.name) ++ ".html") ∧
      (∀ e ∈ topLevel, e.target = "class" ++ esc (baseName e.name) ++ ".html") ∧
      (∀ c ∈ secondLevel, c.target = "class" ++ esc (baseName c.name) ++ ".html") ∧
      (∀ x ∈ allNodes, ∀ c ∈ (baseName x.name).toList, isIdentChar c = true) ∧
      (∀ e₁ ∈ topLevel, ∀ e₂ ∈ topLevel,
        baseName e₁.name = baseName e₂.name → e₁.target = e₂.target) := by
  refine ⟨by decide, by decide, by decide, by decide, by decide⟩

/-- C7. Every sibling list in `hierarchy` is strictly ascending by name under
code-point lexicographic order: the 10 top-level names, and the names of the
children of every top-level entry (`TicTacToe5x5` before
`Tic_Tac_Toe_4x4_Board`); so no sibling list has a duplicate name. -/
theorem siblings_strictly_ascending :
    StrictlyAscending topLevel ∧ topLevel.length = 10 ∧
      (∀ e ∈ topLevel, StrictlyAscending e.children) ∧
      nameLt "TicTacToe5x5" "Tic_Tac_Toe_4x4_Board" ∧
      (topLevel.map JSVal.name).Nodup ∧
      (∀ e ∈ topLevel, (e.children.map JSVal.name).Nodup) := by
  have htop : StrictlyAscending topLevel := by decide
  have hsub : ∀ e ∈ topLevel, StrictlyAscending e.children := by decide
  exact ⟨htop, by decide, hsub, by decide, htop.nodup, fun e he => (hsub e he).nodup⟩

/-- C8. Each derived class is listed exactly once in `hierarchy`: across all
children lists together the second-level names are pairwise distinct, the
second-level targets are pairwise distinct, and no second-level target equals a
top-level target. -/
theorem derived_classes_listed_once :
    (secondLevel.map JSVal.name).Nodup ∧
      (secondLevel.map JSVal.target).Nodup ∧
      (∀ c ∈ secondLevel, ∀ e ∈ topLevel, c.target ≠ e.target) := by
  refine ⟨by decide, by decide, by decide⟩

/-! ## The claims at concrete entries -/

theorem boardIntEntry_mem : boardIntEntry ∈ topLevel := by
  simp [boardIntEntry, topLevel, hierarchy, JSVal.items]

theorem numericalBoardEntry_mem : numericalBoardEntry ∈ boardIntEntry.children := by
  simp [boardIntEntry, numericalBoardEntry, JSVal.children, JSVal.component, JSVal.items]

theorem moveEntry_mem : moveEntry ∈ topLevel := by
  simp [moveEntry, topLevel, hierarchy, JSVal.items]

theorem boardCharEntry_mem : boardCharEntry ∈ topLevel := by
  simp [boardCharEntry, topLevel, hierarchy, JSVal.items]

theorem numericalBoardEntry_mem_secondLevel : numericalBoardEntry ∈ secondLevel :=
  List.mem_flatMap.2 ⟨boardIntEntry, boardIntEntry_mem, numericalBoardEntry_mem⟩

theorem hierarchy_wellFormed_witness : WellFormed numericalBoardEntry :=
  hierarchy_wellFormed.2.2.2.1 boardIntEntry boardIntEntry_mem
    numericalBoardEntry numericalBoardEntry_mem

theorem hierarchy_depth_le_two_witness :
    numericalBoardEntry.childrenIsNull = true ∧ numericalBoardEntry.children = [] :=
  hierarchy_depth_le_two.2.1 boardIntEntry boardIntEntry_mem
    numericalBoardEntry numericalBoardEntry_mem

theorem no_derivatives_exactly_GameManager_Move_witness :
    moveEntry.childrenIsNull = true ∧ moveEntry.children = [] :=
  no_derivatives_exactly_GameManager_Move.2.1 moveEntry moveEntry_mem (by decide)

theorem topLevel_enumerates_baseTemplates_witness :
    ∃ b ∈ baseTemplates, ∃ X : String,
      X ≠ "" ∧ boardIntEntry.name = b ++ "&lt; " ++ X ++ " &gt;" ∧
        baseName boardIntEntry.name = b :=
  topLevel_enumerates_baseTemplates.1 boardIntEntry boardIntEntry_mem

theorem derived_classes_listed_under_instantiations_witness :
    boardIntEntry.childrenIsNull = false ∧ boardIntEntry.children ≠ [] :=
  (derived_classes_listed_under_instantiations.2.1 "Board&lt; int &gt;" (by decide)).2
    boardIntEntry boardIntEntry_mem rfl

theorem target_is_escaped_className_witness :
    numericalBoardEntry.target = "class" ++ esc (baseName numericalBoardEntry.name) ++ ".html" :=
  target_is_escaped_className.2.2.1 numericalBoardEntry numericalBoardEntry_mem_secondLevel

theorem siblings_strictly_ascending_witness :
    boardCharEntry.children.length = 13 ∧ StrictlyAscending boardCharEntry.children :=
  ⟨by decide, siblings_strictly_ascending.2.2.1 boardCharEntry boardCharEntry_mem⟩

theorem derived_classes_listed_once_witness : numericalBoardEntry.target ≠ moveEntry.target :=
  derived_classes_listed_once.2.2 numericalBoardEntry numericalBoardEntry_mem_secondLevel
    moveEntry moveEntry_mem
